import Mathlib

/-
Verification of the Day One JSON import pipeline and its companion UUID link
index (files src/jrnl/plugins/dayone_index.py, src/jrnl/plugins/dayone_json_importer.py,
src/jrnl/messages/*, src/jrnl/commands.py), as a shallow embedding in Lean 4.

Modelling conventions:
- Python datetimes are the record PyDateTime below (proleptic Gregorian fields
  plus an optional UTC offset in minutes; offset = none models a naive datetime).
  Python datetime guarantees 1 <= year <= 9999 and in-range fields, so the
  fixed-width strftime renderings (pad4 / pad2) are exact on the reachable domain.
- Fallible Python code returns Except PyErr; PyErr distinguishes bare
  language-level errors (KeyError, IndexError, ValueError, AttributeError)
  from the structured JrnlException of the program.
- Filesystem paths are strings joined with "/".
- Python str.replace / str.strip / percent decoding are re-implemented on
  List Char so that every definition is kernel-executable.
-/

namespace Jrnl

/-- Python-style errors: the bare built-in exception kinds that the embedded
code can raise, plus the single structured JrnlException kind (identified by
the name of the message-catalog member it carries). -/
inductive PyErr where
  | keyError (key : String)
  | indexError
  | valueError
  | attributeError (owner attr : String)
  | jrnlException (msgName : String)
deriving DecidableEq

/-- True iff the error is the structured JrnlException kind. -/
def PyErr.isJrnl : PyErr → Bool
  | .jrnlException _ => true
  | _ => false

/-- Model of datetime.datetime: calendar fields plus an optional UTC offset in
minutes (none = naive datetime). -/
structure PyDateTime where
  year : Nat
  month : Nat
  day : Nat
  hour : Nat
  minute : Nat
  second : Nat
  offset : Option Int
deriving DecidableEq

/-- datetime.min: 0001-01-01 00:00:00, naive. -/
def pyDatetimeMin : PyDateTime := ⟨1, 1, 1, 0, 0, 0, none⟩

/-- The decimal digit character for n % 10. -/
def digitChar (n : Nat) : Char := Char.ofNat (48 + n % 10)

/-- Two-digit zero-padded rendering (exact for values <= 99, which covers every
field of a Python datetime other than the year). -/
def pad2 (n : Nat) : String := String.mk [digitChar (n / 10), digitChar n]

/-- Four-digit zero-padded rendering (exact for years <= 9999, the full Python
datetime year range). -/
def pad4 (n : Nat) : String :=
  String.mk [digitChar (n / 1000), digitChar (n / 100), digitChar (n / 10), digitChar n]

/-- datetime.isoformat(): YYYY-MM-DDTHH:MM:SS plus +HH:MM / -HH:MM when the
datetime is aware (microseconds are zero everywhere in this development). -/
def isoformat (d : PyDateTime) : String :=
  let base := pad4 d.year ++ "-" ++ pad2 d.month ++ "-" ++ pad2 d.day ++ "T" ++
    pad2 d.hour ++ ":" ++ pad2 d.minute ++ ":" ++ pad2 d.second
  match d.offset with
  | none => base
  | some off =>
    let sign := if off < 0 then "-" else "+"
    let a := off.natAbs
    base ++ sign ++ pad2 (a / 60) ++ ":" ++ pad2 (a % 60)

/-- Value of a decimal digit character. -/
def digitVal (c : Char) : Option Nat :=
  if c.isDigit then some (c.toNat - 48) else none

/-- Two decimal digits. -/
def digit2 (a b : Char) : Option Nat := do
  let x ← digitVal a
  let y ← digitVal b
  pure (10 * x + y)

/-- Four decimal digits. -/
def digit4 (a b c d : Char) : Option Nat := do
  let x ← digit2 a b
  let y ← digit2 c d
  pure (100 * x + y)

/-- Bounds accepted for the calendar fields (the subset of the validation done
by datetime.fromisoformat that matters here; per-month day counts are not
re-checked). -/
def fieldsOk (mo d h mi s : Nat) : Bool :=
  1 ≤ mo && mo ≤ 12 && 1 ≤ d && d ≤ 31 && h ≤ 23 && mi ≤ 59 && s ≤ 59

/-- datetime.fromisoformat restricted to the canonical
YYYY-MM-DDTHH:MM:SS[+HH:MM|-HH:MM] shape produced and consumed by the embedded
code; anything else parses to none (a ValueError in Python). -/
def fromisoformat (str : String) : Option PyDateTime :=
  match str.data with
  | [y1, y2, y3, y4, '-', m1, m2, '-', d1, d2, 'T', h1, h2, ':', n1, n2, ':', s1, s2] => do
    let y ← digit4 y1 y2 y3 y4
    let mo ← digit2 m1 m2
    let d ← digit2 d1 d2
    let h ← digit2 h1 h2
    let mi ← digit2 n1 n2
    let s ← digit2 s1 s2
    if fieldsOk mo d h mi s then pure ⟨y, mo, d, h, mi, s, none⟩ else none
  | [y1, y2, y3, y4, '-', m1, m2, '-', d1, d2, 'T', h1, h2, ':', n1, n2, ':', s1, s2,
     sg, o1, o2, ':', o3, o4] => do
    let y ← digit4 y1 y2 y3 y4
    let mo ← digit2 m1 m2
    let d ← digit2 d1 d2
    let h ← digit2 h1 h2
    let mi ← digit2 n1 n2
    let s ← digit2 s1 s2
    let oh ← digit2 o1 o2
    let om ← digit2 o3 o4
    if fieldsOk mo d h mi s && oh ≤ 23 && om ≤ 59 then
      let mag : Int := Int.ofNat (oh * 60 + om)
      if sg = '+' then pure ⟨y, mo, d, h, mi, s, some mag⟩
      else if sg = '-' then pure ⟨y, mo, d, h, mi, s, some (-mag)⟩
      else none
    else none
  | _ => none

/-- Days since 1970-01-01 of a proleptic-Gregorian civil date (floor-division
formulation of the standard algorithm). -/
def daysFromCivil (y m d : Int) : Int :=
  let yy := if m ≤ 2 then y - 1 else y
  let era := Int.ediv yy 400
  let yoe := yy - era * 400
  let mp := Int.emod (m + 9) 12
  let doy := Int.ediv (153 * mp + 2) 5 + d - 1
  let doe := yoe * 365 + Int.ediv yoe 4 - Int.ediv yoe 100 + doy
  era * 146097 + doe - 719468

/-- Civil date of a count of days since 1970-01-01 (inverse of daysFromCivil). -/
def civilFromDays (z0 : Int) : Int × Int × Int :=
  let z := z0 + 719468
  let era := Int.ediv z 146097
  let doe := z - era * 146097
  let yoe := Int.ediv (doe - Int.ediv doe 1460 + Int.ediv doe 36524 - Int.ediv doe 146096) 365
  let y := yoe + era * 400
  let doy := doe - (365 * yoe + Int.ediv yoe 4 - Int.ediv yoe 100)
  let mp := Int.ediv (5 * doy + 2) 153
  let d := doy - Int.ediv (153 * mp + 2) 5 + 1
  let m := if mp < 10 then mp + 3 else mp - 9
  (if m ≤ 2 then y + 1 else y, m, d)

/-- Re-express the instant denoted by d (naive values are taken as UTC, which
is how the importer produces them: creationDate is parsed as UTC) at the wall
clock of the fixed UTC offset off (in minutes). -/
def shiftToOffset (d : PyDateTime) (off : Int) : PyDateTime :=
  let base := d.offset.getD 0
  let total : Int := daysFromCivil (Int.ofNat d.year) (Int.ofNat d.month) (Int.ofNat d.day) * 1440
    + Int.ofNat d.hour * 60 + Int.ofNat d.minute + (off - base)
  let days := Int.ediv total 1440
  let rem := Int.emod total 1440
  let c := civilFromDays days
  { year := c.1.toNat, month := c.2.1.toNat, day := c.2.2.toNat,
    hour := (Int.ediv rem 60).toNat, minute := (Int.emod rem 60).toNat,
    second := d.second, offset := some off }

/-- Modelled from the spec: the helper jrnl.plugins.util.localize is imported by
both core files but its module is not under src/. Per the spec, section 4.2:
when a timeZone field is present, "convert to that zone's local time". The IANA
zone database is modelled as a fixed offset table giving, for each zone the
spec exercises, the UTC offset (in minutes) in force at the instants exercised
(America/New_York in June 2023 is EDT, UTC-4); an unknown zone yields none,
standing for the lookup error the real zone database would raise. -/
def tzTable : List (String × Int) :=
  [("America/New_York", -240), ("UTC", 0), ("Europe/Rome", 120)]

/-- Modelled from the spec (see tzTable): convert an instant to the named zone
local time. -/
def localize (d : PyDateTime) (tz : String) : Option PyDateTime :=
  match tzTable.lookup tz with
  | none => none
  | some off => some (shiftToOffset d off)

/-- Fuel-driven worker for pyReplace; fuel bounds the number of scanning steps
so that the recursion is structural (fuel = length of the subject suffices,
since every step consumes at least one character). -/
def replFuel (pat rep : List Char) : Nat → List Char → List Char
  | _, [] => []
  | 0, l => l
  | n + 1, c :: cs =>
    if pat.isPrefixOf (c :: cs) then rep ++ replFuel pat rep n ((c :: cs).drop pat.length)
    else c :: replFuel pat rep n cs

/-- Python str.replace: replace every non-overlapping occurrence, scanning left
to right (all patterns used by the embedded code are non-empty). -/
def pyReplace (s pat rep : String) : String :=
  String.mk (replFuel pat.data rep.data s.data.length s.data)

/-- Python str.strip() restricted to ASCII whitespace (the only whitespace the
embedded code encounters). -/
def pyStrip (s : String) : String :=
  String.mk (((s.data.dropWhile Char.isWhitespace).reverse.dropWhile Char.isWhitespace).reverse)

/-- Split a character list at every occurrence of the separator character. -/
def splitChar (sep : Char) : List Char → List (List Char)
  | [] => [[]]
  | c :: cs =>
    let r := splitChar sep cs
    if c = sep then [] :: r
    else match r with
      | a :: rest => (c :: a) :: rest
      | [] => [[c]]

/-- Split a character list at newline characters. -/
def splitNL (l : List Char) : List (List Char) := splitChar '\n' l

/-- str.join over a separator. -/
def joinSep (sep : String) : List String → String
  | [] => ""
  | [x] => x
  | x :: xs => x ++ sep ++ joinSep sep xs

/-- textwrap.indent with a four-space prefix: prefix every line that has
non-whitespace content. -/
def indent4 (s : String) : String :=
  joinSep "\n" ((splitNL s.data).map (fun l =>
    let line := String.mk l
    if (pyStrip line) = "" then line else "    " ++ line))

/-- UTF-8 encoding of one character. -/
def utf8Encode (c : Char) : List UInt8 :=
  let n := c.toNat
  if n < 0x80 then [UInt8.ofNat n]
  else if n < 0x800 then
    [UInt8.ofNat (0xC0 + n / 64), UInt8.ofNat (0x80 + n % 64)]
  else if n < 0x10000 then
    [UInt8.ofNat (0xE0 + n / 4096), UInt8.ofNat (0x80 + n / 64 % 64), UInt8.ofNat (0x80 + n % 64)]
  else
    [UInt8.ofNat (0xF0 + n / 262144), UInt8.ofNat (0x80 + n / 4096 % 64),
     UInt8.ofNat (0x80 + n / 64 % 64), UInt8.ofNat (0x80 + n % 64)]

/-- Strict UTF-8 decoding (structural validation only; overlong forms are not
re-checked, which is irrelevant on the byte strings this development decodes). -/
def utf8Decode : List UInt8 → Option (List Char)
  | [] => some []
  | b :: bs =>
    let n := b.toNat
    if n < 0x80 then (utf8Decode bs).map (fun cs => Char.ofNat n :: cs)
    else if 0xC0 ≤ n && n < 0xE0 then
      match bs with
      | b1 :: bs1 =>
        if 0x80 ≤ b1.toNat && b1.toNat < 0xC0 then
          (utf8Decode bs1).map (fun cs => Char.ofNat ((n - 0xC0) * 64 + (b1.toNat - 0x80)) :: cs)
        else none
      | [] => none
    else if 0xE0 ≤ n && n < 0xF0 then
      match bs with
      | b1 :: b2 :: bs2 =>
        if (0x80 ≤ b1.toNat && b1.toNat < 0xC0) && (0x80 ≤ b2.toNat && b2.toNat < 0xC0) then
          (utf8Decode bs2).map (fun cs =>
            Char.ofNat ((n - 0xE0) * 4096 + (b1.toNat - 0x80) * 64 + (b2.toNat - 0x80)) :: cs)
        else none
      | _ => none
    else if 0xF0 ≤ n && n < 0xF8 then
      match bs with
      | b1 :: b2 :: b3 :: bs3 =>
        if (0x80 ≤ b1.toNat && b1.toNat < 0xC0) && (0x80 ≤ b2.toNat && b2.toNat < 0xC0)
            && (0x80 ≤ b3.toNat && b3.toNat < 0xC0) then
          (utf8Decode bs3).map (fun cs =>
            Char.ofNat ((n - 0xF0) * 262144 + (b1.toNat - 0x80) * 4096
              + (b2.toNat - 0x80) * 64 + (b3.toNat - 0x80)) :: cs)
        else none
      | _ => none
    else none

/-- Value of a hexadecimal digit character. -/
def hexVal (c : Char) : Option Nat :=
  if c.isDigit then some (c.toNat - 48)
  else if 'a' ≤ c && c ≤ 'f' then some (c.toNat - 87)
  else if 'A' ≤ c && c ≤ 'F' then some (c.toNat - 55)
  else none

/-- Byte stream of a percent-encoded string: %XX escapes become raw bytes, and
every other character contributes its UTF-8 bytes (an invalid escape is kept
literally, as urllib.parse.unquote does). -/
def pctBytes : List Char → List UInt8
  | [] => []
  | '%' :: c1 :: c2 :: rest =>
    match hexVal c1, hexVal c2 with
    | some h, some l => UInt8.ofNat (h * 16 + l) :: pctBytes rest
    | _, _ => utf8Encode '%' ++ pctBytes (c1 :: c2 :: rest)
  | c :: rest => utf8Encode c ++ pctBytes rest

/-- urllib.parse.unquote on the canonical inputs of this program: decode %XX
escapes as UTF-8 bytes. On undecodable byte streams the real function inserts
replacement characters; this model returns the input unchanged there (never
reached by the development). -/
def pctDecode (s : String) : String :=
  match utf8Decode (pctBytes s.data) with
  | some cs => String.mk cs
  | none => s

/-- pathlib.PurePath.stem on the canonical paths of this program: the final
path component without its last dot-suffix (a dot at position zero of the name
does not start a suffix). -/
def pathStem (p : String) : String :=
  let name := (splitChar '/' p.data).getLastD []
  match name with
  | [] => String.mk name
  | c0 :: rest =>
    if ('.' ∈ rest) then
      let revd := (c0 :: rest).reverse
      String.mk ((revd.dropWhile (fun c => c ≠ '.')).drop 1).reverse
    else String.mk name

/-- dayone_index.extract_journal_name: percent-decoded stem of the export path. -/
def extract_journal_name (exportPath : String) : String :=
  pctDecode (pathStem exportPath)

/-- A photo attachment of a Day One entry: the fields the converter reads
(identifier, md5 content hash and the "type" extension field, all of which the
converter accesses unconditionally). -/
structure RawPhoto where
  identifier : String
  md5 : String
  ptype : String
deriving DecidableEq

/-- A PDF attachment: the converter reads identifier and md5; the media check
of the pipeline additionally consults the optional "type"/"format" fields. -/
structure RawPdf where
  identifier : String
  md5 : String
  ptype : Option String
  format : Option String
deriving DecidableEq

/-- An audio attachment: the converter reads identifier, md5 and "format"
unconditionally; per the export schema (spec, section 3) audio attachments
carry their extension in "format", and the optional "type" field is kept so
the get-chain of the media check can be modelled faithfully. -/
structure RawAudio where
  identifier : String
  md5 : String
  atype : Option String
  format : String
deriving DecidableEq

/-- The "location" sub-record. Latitude and longitude are represented by the
decimal string that Python would interpolate for them (their float nature is
not modelled); the converter reads them unconditionally. -/
structure RawLocation where
  placeName : Option String
  localityName : Option String
  country : Option String
  latitude : String
  longitude : String
deriving DecidableEq

/-- The "weather" sub-record; the two numeric fields are represented by the
string their one-decimal formatting produces (float formatting not modelled). -/
structure RawWeather where
  conditionsDescription : String
  temperatureCelsius1f : String
  windSpeedKPH1f : String
deriving DecidableEq

/-- A raw Day One entry record: each Option field models presence of the JSON
key of the same name. -/
structure RawEntry where
  uuid : Option String
  creationDate : Option String
  timeZone : Option String
  text : Option String
  tags : Option (List String)
  starred : Option Bool
  location : Option RawLocation
  weather : Option RawWeather
  creationDevice : Option String
  creationDeviceType : Option String
  photos : Option (List RawPhoto)
  pdfAttachments : Option (List RawPdf)
  audios : Option (List RawAudio)
deriving DecidableEq

/-- An entry record with every field absent. -/
def emptyRaw : RawEntry :=
  ⟨none, none, none, none, none, none, none, none, none, none, none, none, none⟩

/-- The creation-date computation shared verbatim by DayOneJSONImporter._convert
(dayone_json_importer.py lines 63-67) and DayOneIndex.add_entries
(dayone_index.py lines 208-211): read entry["creationDate"] (KeyError when
absent), replace "Z" with "+00:00", parse, and localize when a truthy timeZone
field (escaped backslashes stripped) is present. -/
def parseEntryDate (e : RawEntry) : Except PyErr PyDateTime :=
  match e.creationDate with
  | none => .error (PyErr.keyError "creationDate")
  | some cd =>
    match fromisoformat (pyReplace cd "Z" "+00:00") with
    | none => .error PyErr.valueError
    | some d =>
      match e.timeZone with
      | none => .ok d
      | some tz =>
        if tz = "" then .ok d
        else
          match localize d (pyReplace tz "\\" "") with
          | some d2 => .ok d2
          | none => .error PyErr.valueError

/-- The header timestamp rendering date.strftime("%Y-%m-%d %H:%M:%S %p"):
zero-padded 24-hour clock fields with an AM/PM marker (AM for hours 0-11). -/
def headerDate (d : PyDateTime) : String :=
  "[" ++ pad4 d.year ++ "-" ++ pad2 d.month ++ "-" ++ pad2 d.day ++ " " ++
    pad2 d.hour ++ ":" ++ pad2 d.minute ++ ":" ++ pad2 d.second ++ " " ++
    (if d.hour < 12 then "AM" else "PM") ++ "]"

/-- Body-text unescaping of the converter: literal backslash-bang to bang,
backslash-dot to dot, backslash-n to newline. -/
def unescapeText (t : String) : String :=
  pyReplace (pyReplace (pyReplace t "\\!" "!") "\\." ".") "\\n" "\n"

/-- One tag: lower-case the first character (IndexError on an empty tag), then
strip every space. -/
def normTag (t : String) : Except PyErr String :=
  match t.data with
  | [] => .error PyErr.indexError
  | c :: cs => .ok (pyReplace (String.mk (c.toLower :: cs)) " " "")

/-- Normalize every tag in order, stopping at the first failure (the list
comprehension of the source evaluates tags left to right). -/
def mapNormTags : List String → Except PyErr (List String)
  | [] => .ok []
  | t :: ts =>
    match normTag t with
    | .error e => .error e
    | .ok n =>
      match mapNormTags ts with
      | .error e => .error e
      | .ok ns => .ok (n :: ns)

/-- The tag step of the converter: a truthy tags list is normalized and
hash-prefixed; otherwise the literal #untagged. -/
def tagsLine (tags : Option (List String)) : Except PyErr String :=
  match tags with
  | none => .ok "#untagged"
  | some ts =>
    if ts.isEmpty then .ok "#untagged"
    else
      match mapNormTags ts with
      | .error e => .error e
      | .ok ns => .ok (joinSep " " (ns.map (fun tag => "#" ++ tag)))

/-- The local filesystem path the converter substitutes for an audio moment
URL: base_path/audios/<md5>.<format> (dayone_json_importer.py lines 103-105). -/
def audioLocalPath (basePath : String) (a : RawAudio) : String :=
  basePath ++ "/audios/" ++ a.md5 ++ "." ++ a.format

/-- Photo moment-URL rewriting over the body text. -/
def rewritePhotos (basePath : String) (ps : List RawPhoto) (t : String) : String :=
  ps.foldl (fun acc p =>
    pyReplace acc ("![](dayone-moment://" ++ p.identifier ++ ")")
      ("![](" ++ basePath ++ "/photos/" ++ p.md5 ++ "." ++ p.ptype ++ ")")) t

/-- PDF moment-URL rewriting over the body text. -/
def rewritePdfs (basePath : String) (ps : List RawPdf) (t : String) : String :=
  ps.foldl (fun acc p =>
    pyReplace acc ("![](dayone-moment:/pdfAttachment/" ++ p.identifier ++ ")")
      ("![](" ++ basePath ++ "/pdfs/" ++ p.md5 ++ ".pdf)")) t

/-- Audio moment-URL rewriting over the body text. -/
def rewriteAudios (basePath : String) (auds : List RawAudio) (t : String) : String :=
  auds.foldl (fun acc a =>
    pyReplace acc ("![](dayone-moment:/audio/" ++ a.identifier ++ ")")
      ("![](" ++ audioLocalPath basePath a ++ ")")) t

/-- The Place/Location metadata lines for a present location record. -/
def locationLines (loc : RawLocation) : List String :=
  let place := [loc.placeName, loc.localityName, loc.country].filterMap id
  let placeStr := if place.isEmpty then "" else joinSep ", " place
  (if placeStr = "" then [] else ["Place:: " ++ placeStr]) ++
    ["Location:: " ++ loc.latitude ++ ", " ++ loc.longitude]

/-- The Weather metadata line. -/
def weatherLine (w : RawWeather) : String :=
  "Weather:: " ++ w.conditionsDescription ++ ", " ++ w.temperatureCelsius1f ++ "°C, " ++
    w.windSpeedKPH1f ++ " km/h"

/-- The Device metadata line: reading entry["creationDeviceType"] is
unconditional once creationDevice is present, so its absence is a KeyError. -/
def deviceLines (e : RawEntry) : Except PyErr (List String) :=
  match e.creationDevice with
  | none => .ok []
  | some dev =>
    match e.creationDeviceType with
    | none => .error (PyErr.keyError "creationDeviceType")
    | some dt => .ok ["Device:: " ++ dev ++ " (" ++ dt ++ ")"]

/-- The final assembly of the converter: the header line, the indented
metadata block when non-empty, then a blank line and the stripped body when
the body is truthy, joined with newlines. -/
def assembleLines (dateStr tagsStr : String) (metadataLines : List String)
    (txt2 : Option String) : String :=
  let lines0 := [dateStr ++ " " ++ tagsStr]
  let lines1 :=
    if metadataLines.isEmpty then lines0
    else lines0 ++ [indent4 (joinSep "\n" metadataLines)]
  let lines2 :=
    match txt2 with
    | none => lines1
    | some t => if t = "" then lines1 else lines1 ++ ["", pyStrip t]
  joinSep "\n" lines2

/-- DayOneJSONImporter._convert: transform one raw entry into the jrnl plain
text form, mirroring the source step for step (date header, text unescaping,
tag line, star marker, media rewriting, metadata block, assembly). -/
def convert (e : RawEntry) (basePath : String) : Except PyErr String :=
  match parseEntryDate e with
  | .error err => .error err
  | .ok d =>
    let dateStr := headerDate d
    let txt1 : Option String :=
      match e.text with
      | none => none
      | some t => if t = "" then some t else some (unescapeText t)
    match tagsLine e.tags with
    | .error err => .error err
    | .ok tagsBase =>
      let tagsStr := tagsBase ++ (if e.starred.getD false then " *\n" else "\n")
      let txt2 : Option String :=
        match txt1 with
        | none => none
        | some t =>
          if t = "" then some t
          else
            let t := match e.photos with | some ps => rewritePhotos basePath ps t | none => t
            let t := match e.pdfAttachments with | some ps => rewritePdfs basePath ps t | none => t
            let t := match e.audios with | some auds => rewriteAudios basePath auds t | none => t
            some t
      match deviceLines e with
      | .error err => .error err
      | .ok mDev =>
        let mLoc := match e.location with | some loc => locationLines loc | none => []
        let mW := match e.weather with | some w => [weatherLine w] | none => []
        .ok (assembleLines dateStr tagsStr (mLoc ++ mW ++ mDev) txt2)

/-- The extension used by the media-existence check of the import pipeline
(dayone_json_importer.py lines 196-198): media.get("type","") or
media.get("format",""), with "aac" rewritten to "m4a". -/
def mediaExtFor (typeField formatField : Option String) : String :=
  let e0 := if typeField.getD "" ≠ "" then typeField.getD "" else formatField.getD ""
  if e0 = "aac" then "m4a" else e0

/-- The on-disk path the pipeline tests for an audio attachment:
input_path.parent/audios/<md5>.<ext> with ext from the get-chain above. -/
def checkPathAudio (parent : String) (a : RawAudio) : String :=
  parent ++ "/audios/" ++ a.md5 ++ "." ++ mediaExtFor a.atype (some a.format)

/-- The JSON values the index file traffics in: strings and objects (an object
is an insertion-ordered field list, as a Python dict serializes). -/
inductive JValue where
  | jstr (s : String)
  | jobj (fields : List (String × JValue))

/-- Field lookup in a JSON object (none on a non-object or a missing key). -/
def jGet (j : JValue) (k : String) : Option JValue :=
  match j with
  | .jstr _ => none
  | .jobj fs => fs.lookup k

/-- The key list of a JSON object. -/
def jKeys (j : JValue) : List String :=
  match j with
  | .jstr _ => []
  | .jobj fs => fs.map Prod.fst

/-- dayone_index.IndexedEntry (the utf-8 validation of __post_init__ is
trivially satisfied by Lean strings and is not modelled; Python equality of
these records is by uuid only, while the statements below use full structural
equality, which is the stronger notion). -/
structure IndexedEntry where
  uuid : String
  date : PyDateTime
  journal_name : String
  original_journal_name : String
deriving DecidableEq

/-- dayone_index.IndexMode. -/
inductive IndexMode where
  | USE
  | BUILD
deriving DecidableEq

/-- The state of a DayOneIndex object together with its backing file: disk is
the JSON value currently persisted (none when the index file does not exist),
entries is the in-memory uuid-to-entry mapping as an insertion-ordered
association list, and last_modified mirrors the attribute of the same name. -/
structure IndexState where
  disk : Option JValue
  entries : List (String × IndexedEntry)
  last_modified : PyDateTime
  mode : IndexMode

/-- DayOneIndex.is_usable: the backing file exists and the mapping is
non-empty. -/
def is_usable (st : IndexState) : Bool :=
  st.disk.isSome && !st.entries.isEmpty

/-- DayOneIndex.__getitem__: warn and return none when the index is not usable
in USE mode, otherwise look the uuid up. -/
def getItem (st : IndexState) (u : String) : Option IndexedEntry :=
  if !is_usable st && st.mode = IndexMode.USE then none
  else st.entries.lookup u

/-- DayOneIndex._save_index: the JSON object written to disk. Note the
per-entry key "orignal_journal_name", spelled exactly as in the source
(dayone_index.py line 171). -/
def saveIndexJson (entries : List (String × IndexedEntry)) (lastModified : PyDateTime) : JValue :=
  .jobj [("last_modified", .jstr (isoformat lastModified)),
         ("entries", .jobj (entries.map (fun p =>
           (p.1, JValue.jobj [("date", .jstr (isoformat p.2.date)),
                              ("journal_name", .jstr p.2.journal_name),
                              ("orignal_journal_name", .jstr p.2.original_journal_name)]))))]

/-- Rebuild one IndexedEntry from its JSON object, mirroring the dict
comprehension of _load_index: entry["date"] / entry["journal_name"] /
entry["orignal_journal_name"] raise KeyError when absent (caught upstream as
IndexFileMalformed), and a date that is not a parseable string raises the
generic error caught as IndexLoadError. -/
def loadOneEntry (u : String) (ej : JValue) : Except PyErr IndexedEntry :=
  match jGet ej "date" with
  | none => .error (PyErr.jrnlException "IndexFileMalformed")
  | some dv =>
    match jGet ej "journal_name" with
    | none => .error (PyErr.jrnlException "IndexFileMalformed")
    | some jv =>
      match jGet ej "orignal_journal_name" with
      | none => .error (PyErr.jrnlException "IndexFileMalformed")
      | some ov =>
        match dv, jv, ov with
        | .jstr ds, .jstr js, .jstr os =>
          match fromisoformat ds with
          | none => .error (PyErr.jrnlException "IndexLoadError")
          | some d => .ok ⟨u, d, js, os⟩
        | _, _, _ => .error (PyErr.jrnlException "IndexLoadError")

/-- The entry mapping parsed from the index file content by _load_index. -/
def loadEntries : List (String × JValue) → Except PyErr (List (String × IndexedEntry))
  | [] => .ok []
  | (u, ej) :: rest =>
    match loadOneEntry u ej with
    | .error e => .error e
    | .ok entry =>
      match loadEntries rest with
      | .error e => .error e
      | .ok es => .ok ((u, entry) :: es)

/-- DayOneIndex._load_index on the file content: a missing "entries" key is a
KeyError reported as the IndexFileMalformed JrnlException; any other failure is
the IndexLoadError JrnlException. -/
def loadFromDisk (disk : Option JValue) : Except PyErr (List (String × IndexedEntry)) :=
  match disk with
  | none => .ok []
  | some data =>
    match jGet data "entries" with
    | none => .error (PyErr.jrnlException "IndexFileMalformed")
    | some ev =>
      match ev with
      | .jstr _ => .error (PyErr.jrnlException "IndexLoadError")
      | .jobj fs => loadEntries fs

/-- DayOneIndex.__init__: start from an empty mapping with
last_modified = datetime.min, then run _load_index. The loaded state keeps
last_modified = datetime.min because _load_index never reads the
"last_modified" key back (dayone_index.py lines 126-161). -/
def constructDayOneIndex (mode : IndexMode) (disk : Option JValue) : Except PyErr IndexState :=
  match loadFromDisk disk with
  | .error e => .error e
  | .ok es => .ok { disk := disk, entries := es, last_modified := pyDatetimeMin, mode := mode }

/-- The status report printed at the end of DayOneIndex.add_entries. -/
inductive AddMsg where
  | created (count : Nat)
  | updated (count : Nat)
  | upToDate
deriving DecidableEq

/-- A truthy uuid field (Python: "if not uuid" skips both a missing key and an
empty string). -/
def truthyUuid (e : RawEntry) : Option String :=
  match e.uuid with
  | none => none
  | some u => if u = "" then none else some u

/-- The entry loop of add_entries: skip entries without a truthy uuid and
entries whose uuid is already present; otherwise compute the localized date
and append the new IndexedEntry. -/
def addLoop (journalName origName : String) :
    List RawEntry → List (String × IndexedEntry) → Except PyErr (List (String × IndexedEntry))
  | [], es => .ok es
  | e :: rest, es =>
    match truthyUuid e with
    | none => addLoop journalName origName rest es
    | some u =>
      if (es.lookup u).isSome then addLoop journalName origName rest es
      else
        match parseEntryDate e with
        | .error err => .error err
        | .ok d => addLoop journalName origName rest (es ++ [(u, ⟨u, d, journalName, origName⟩)])

/-- DayOneIndex.add_entries (dayone_index.py lines 188-238). The ambient
datetime.now() is passed explicitly as now. When is_created or is_updated
holds, last_modified is set and the index persisted; otherwise the state is
untouched and "up to date" is reported. -/
def add_entries (st : IndexState) (raws : List RawEntry) (journal_name : String)
    (exportPath : String) (now : PyDateTime) : Except PyErr (IndexState × AddMsg) :=
  let origName := extract_journal_name exportPath
  let before := st.entries.length
  match addLoop journal_name origName raws st.entries with
  | .error e => .error e
  | .ok es2 =>
    let after := es2.length
    let isCreated := before == 0
    let isUpdated := decide (after > before)
    if isCreated || isUpdated then
      .ok ({ st with entries := es2, last_modified := now, disk := some (saveIndexJson es2 now) },
           if isCreated then AddMsg.created after else AddMsg.updated (after - before))
    else
      .ok ({ st with entries := es2 }, AddMsg.upToDate)

/-- The member names of the DayOneIndexMsg message catalog, exactly as declared
in dayone_index.py lines 39-58. -/
def dayOneIndexMsgMembers : List String :=
  ["IndexFileMissing", "IndexFileNotFound", "IndexFileMalformed", "IndexLoadError",
   "IndexNotFound", "IndexCreated", "IndexUpdated", "IndexUpToDate",
   "IndexClearConfirm", "IndexCleared", "IndexNotUsable", "InvalidJournalName"]

/-- Python attribute access DayOneIndexMsg.<name>: some name when the enum
member exists, none otherwise (an AttributeError in Python). -/
def dayOneIndexMsgAttr (name : String) : Option String :=
  if name ∈ dayOneIndexMsgMembers then some name else none

/-- Outcome of the staleness gate of the import pipeline. -/
inductive ImportGate where
  | proceed
  | abortImport
deriving DecidableEq

/-- The staleness gate of DayOneJSONImporter.import_ (lines 227-236): when the
index is usable and its last_modified timestamp predates the ctime of the input
file, the code builds Message(DayOneIndexMsg.IndexOutdated, ...) to warn
and then asks a yes/no question; answer is the reply of the prompt. The
attribute access is modelled explicitly because the referenced member must
exist for the warning to be printable. -/
def importStalenessGate (idxUsable : Bool) (lastModTs fileCtime : Int) (answer : Bool) :
    Except PyErr ImportGate :=
  if idxUsable && decide (lastModTs < fileCtime) then
    match dayOneIndexMsgAttr "IndexOutdated" with
    | none => .error (PyErr.attributeError "DayOneIndexMsg" "IndexOutdated")
    | some _ => if answer then .ok ImportGate.proceed else .ok ImportGate.abortImport
  else .ok ImportGate.proceed

/-- Characters matched by the uuid group of the link pattern: [a-zA-Z0-9-]. -/
def uuidChar (c : Char) : Bool :=
  (('a' ≤ c && c ≤ 'z') || ('A' ≤ c && c ≤ 'Z') || ('0' ≤ c && c ≤ '9')) || c = '-'

/-- Greedy span of a character predicate: the longest prefix satisfying p,
paired with the remainder. -/
def spanChars (p : Char → Bool) : List Char → List Char × List Char
  | [] => ([], [])
  | c :: cs =>
    if p c then
      let r := spanChars p cs
      (c :: r.1, r.2)
    else ([], c :: cs)

/-- Consume an exact literal prefix, returning the remainder on success. -/
def dropLit : List Char → List Char → Option (List Char)
  | [], l => some l
  | _ :: _, [] => none
  | c :: cs, x :: xs => if x = c then dropLit cs xs else none

/-- The fixed middle part of the link pattern, from the closing bracket of the
display text through the equals sign of the Id query parameter. -/
def midLit : List Char := "](dayone2://view?Id=".data

/-- Match the regex of resolve_links at the start of the input: an opening
bracket, a non-empty greedy run of non-bracket characters as display text, the
literal middle part, a non-empty greedy run of uuid characters, and a closing
parenthesis. Returns (display text, uuid, remainder) on success. Both character
classes exclude the character that must follow them, so the greedy match is
deterministic, exactly as for the Python pattern. -/
def matchLink (l : List Char) : Option (List Char × List Char × List Char) :=
  match l with
  | [] => none
  | c :: rest =>
    if c = '[' then
      let s1 := spanChars (fun x => x ≠ ']') rest
      if s1.1.isEmpty then none
      else
        match dropLit midLit s1.2 with
        | none => none
        | some r2 =>
          let s2 := spanChars uuidChar r2
          if s2.1.isEmpty then none
          else
            match s2.2 with
            | c2 :: r4 => if c2 = ')' then some (s1.1, s2.1, r4) else none
            | [] => none
    else none

/-- The cross-journal reference the index substitutes for a resolved link:
two-bracket target with journal name, zero-padded Y/m/d date path, and the
original display text. -/
def entryRef (tgt : IndexedEntry) (linkText : String) : String :=
  "[[" ++ tgt.journal_name ++ "/" ++ pad4 tgt.date.year ++ "/" ++ pad2 tgt.date.month ++ "/" ++
    pad2 tgt.date.day ++ "|" ++ linkText ++ "]]"

/-- The replacement text for one matched link: the cross-journal reference when
the uuid is found through __getitem__, otherwise the matched text itself
(match.group(0)), reconstructed from its parts. -/
def replFor (st : IndexState) (dt u : List Char) : List Char :=
  match getItem st (String.mk u) with
  | some tgt => (entryRef tgt (String.mk dt)).data
  | none => '[' :: (dt ++ midLit ++ u ++ [')'])

/-- Fuel-driven scanner of re.sub: at each position try the pattern; on a match
emit the replacement and continue after the matched region, otherwise emit one
character and move on. Fuel = input length suffices, since every step consumes
at least one character. -/
def resolveAuxF (st : IndexState) : Nat → List Char → List Char
  | _, [] => []
  | 0, l => l
  | n + 1, c :: rest =>
    match matchLink (c :: rest) with
    | some (dt, u, r4) => replFor st dt u ++ resolveAuxF st n r4
    | none => c :: resolveAuxF st n rest

/-- The canonical scanner (fuel instantiated at the input length). -/
def resolveListChars (st : IndexState) (l : List Char) : List Char :=
  resolveAuxF st l.length l

/-- DayOneIndex.resolve_links (dayone_index.py lines 240-252). -/
def resolve_links (st : IndexState) (text : String) : String :=
  String.mk (resolveListChars st text.data)

/-- Decidable equality for Except values (used to settle closed statements by
computation). -/
instance {ε α : Type} [DecidableEq ε] [DecidableEq α] : DecidableEq (Except ε α) := fun x y =>
  match x, y with
  | .error a, .error b =>
    if h : a = b then
      Decidable.isTrue (by rw [h])
    else
      Decidable.isFalse (by simp [h])
  | .ok a, .ok b =>
    if h : a = b then
      Decidable.isTrue (by rw [h])
    else
      Decidable.isFalse (by simp [h])
  | .error _, .ok _ => Decidable.isFalse (by simp)
  | .ok _, .error _ => Decidable.isFalse (by simp)

/-- Two strings with the same character data are equal. -/
theorem strDataInj {a b : String} (h : a.data = b.data) : a = b := by
  cases a
  cases b
  exact congrArg String.mk h

/-- Appending on the left is injective for strings. -/
theorem str_append_right_inj (p a b : String) : p ++ a = p ++ b ↔ a = b := by
  constructor
  · intro h
    apply strDataInj
    have hd := congrArg String.data h
    rw [String.data_append, String.data_append] at hd
    exact List.append_cancel_left hd
  · intro h
    rw [h]

/-- A string is the empty string iff its data is the empty list. -/
theorem str_eq_empty_iff (s : String) : s = "" ↔ s.data = [] := by
  constructor
  · intro h
    rw [h]
  · intro h
    apply strDataInj
    simpa using h

/-- A concrete index content used by the persistence statements: one entry and
a non-minimal last_modified value. -/
def exEntries : List (String × IndexedEntry) :=
  [("abc-1", ⟨"abc-1", ⟨2023, 6, 1, 8, 0, 0, some (-240)⟩, "work", "Orig Journal"⟩)]

/-- A concrete non-minimal last_modified value. -/
def exLastModified : PyDateTime := ⟨2023, 5, 4, 10, 20, 30, none⟩

/-- C1: during import, with a usable index whose last_modified timestamp
predates the ctime of the import file, the staleness branch of import_ does
not warn and prompt: constructing the warning raises AttributeError, because
the message catalog of dayone_index.py declares no IndexOutdated member
(referenced at dayone_json_importer.py line 232). In particular the gate never
reaches the clean abort, whatever the answer to the prompt would have been. -/
theorem c1_staleness_gate_bug :
    dayOneIndexMsgAttr "IndexOutdated" = none ∧
    importStalenessGate true 0 100 false =
      Except.error (PyErr.attributeError "DayOneIndexMsg" "IndexOutdated") ∧
    importStalenessGate true 0 100 true =
      Except.error (PyErr.attributeError "DayOneIndexMsg" "IndexOutdated") ∧
    importStalenessGate true 0 100 false ≠ Except.ok ImportGate.abortImport := by
  refine ⟨rfl, rfl, rfl, ?_⟩
  decide

/-- C2: saving an index whose last_modified is a concrete non-minimal value and
loading it back (DayOneIndex.__init__ over the saved JSON) restores the entry
mapping but returns last_modified = datetime.min, because _load_index never
reads the persisted "last_modified" key: the save/load round-trip of
last_modified fails. -/
theorem c2_last_modified_not_restored :
    constructDayOneIndex IndexMode.USE (some (saveIndexJson exEntries exLastModified)) =
      Except.ok { disk := some (saveIndexJson exEntries exLastModified),
                  entries := exEntries,
                  last_modified := pyDatetimeMin,
                  mode := IndexMode.USE } ∧
    pyDatetimeMin ≠ exLastModified := by
  refine ⟨rfl, ?_⟩
  decide

/-- The per-entry schema of the persisted index file, as the spec states it but
with the key spelling the source actually writes. -/
def entrySchemaOk : JValue → Bool
  | .jobj [("date", .jstr _), ("journal_name", .jstr _), ("orignal_journal_name", .jstr _)] => true
  | _ => false

/-- The top-level schema of the persisted index file: a last_modified string
and an entries object whose values all satisfy the per-entry schema. -/
def indexSchemaOk : JValue → Bool
  | .jobj [("last_modified", .jstr _), ("entries", .jobj es)] =>
    es.all (fun p => entrySchemaOk p.2)
  | _ => false

/-- C5 counterexample: the object written for a concrete entry carries the key
"orignal_journal_name" and not "original_journal_name", refuting the claimed
per-entry key set. -/
theorem c5_misspelled_key_cex :
    ((jGet (saveIndexJson exEntries exLastModified) "entries").bind
        (fun ev => jGet ev "abc-1")).map jKeys =
      some ["date", "journal_name", "orignal_journal_name"] ∧
    ((jGet (saveIndexJson exEntries exLastModified) "entries").bind
        (fun ev => jGet ev "abc-1")).map
        (fun ej => (jKeys ej).contains "original_journal_name") = some false := by
  exact ⟨rfl, rfl⟩

/-- C5 as amended: for every index state, the JSON object written by save has
exactly the schema with top-level keys last_modified (an ISO string) and
entries, and per-entry string fields date, journal_name and (misspelled)
orignal_journal_name. -/
theorem c5_schema (es : List (String × IndexedEntry)) (lm : PyDateTime) :
    indexSchemaOk (saveIndexJson es lm) = true := by
  show (es.map _).all _ = true
  rw [List.all_eq_true]
  intro x hx
  rw [List.mem_map] at hx
  obtain ⟨p, _, hpx⟩ := hx
  rw [← hpx]
  rfl

/-- C8 counterexample: converting a record without creationDate fails with the
bare language-level KeyError, which is not the structured JrnlException kind. -/
theorem c8_bare_keyerror_cex :
    convert emptyRaw "/p" = Except.error (PyErr.keyError "creationDate") ∧
    (PyErr.keyError "creationDate").isJrnl = false := ⟨rfl, rfl⟩

/-- C8 as amended: for every entry record lacking a creationDate field, convert
fails, but the failure is the bare KeyError of the unguarded dictionary access,
not the structured JrnlException kind. -/
theorem c8_missing_creation_date (e : RawEntry) (bp : String) (h : e.creationDate = none) :
    convert e bp = Except.error (PyErr.keyError "creationDate") ∧
    (PyErr.keyError "creationDate").isJrnl = false := by
  have hp : parseEntryDate e = Except.error (PyErr.keyError "creationDate") := by
    unfold parseEntryDate
    rw [h]
  refine ⟨?_, rfl⟩
  unfold convert
  rw [hp]

/-- Witness for c8_missing_creation_date at a concrete record. -/
theorem c8_missing_creation_date_witness :
    emptyRaw.creationDate = none ∧
    (convert emptyRaw "/base" = Except.error (PyErr.keyError "creationDate") ∧
      (PyErr.keyError "creationDate").isJrnl = false) :=
  ⟨rfl, c8_missing_creation_date emptyRaw "/base" rfl⟩

/-- The get-chain of the media check collapses, for a record without a type
field, to the aac-to-m4a rewriting of its format field. -/
theorem mediaExtFor_none (f : String) :
    mediaExtFor none (some f) = if f = "aac" then "m4a" else f := by
  simp [mediaExtFor]

/-- C10: for an audio attachment (whose extension lives in its format field,
with no type field), the path tested by the media-existence check of import_
coincides with the local path the converter substitutes into the body exactly
when format is not "aac"; for format = "aac" the check probes extension m4a
while the body is rewritten to extension aac. -/
theorem c10_audio_ext_relation (bp : String) (a : RawAudio) (h : a.atype = none) :
    (checkPathAudio bp a = audioLocalPath bp a ↔ a.format ≠ "aac") ∧
    (a.format = "aac" →
      checkPathAudio bp a = bp ++ "/audios/" ++ a.md5 ++ ".m4a" ∧
      audioLocalPath bp a = bp ++ "/audios/" ++ a.md5 ++ ".aac") := by
  by_cases hfa : a.format = "aac"
  · have hch : checkPathAudio bp a = bp ++ "/audios/" ++ a.md5 ++ ".m4a" := by
      unfold checkPathAudio
      rw [h, mediaExtFor_none, if_pos hfa]
      apply strDataInj
      simp only [String.data_append, List.append_assoc]
      rfl
    have hlo : audioLocalPath bp a = bp ++ "/audios/" ++ a.md5 ++ ".aac" := by
      unfold audioLocalPath
      rw [hfa]
      apply strDataInj
      simp only [String.data_append, List.append_assoc]
      rfl
    refine ⟨⟨fun heq => ?_, fun hne => absurd hfa hne⟩, fun _ => ⟨hch, hlo⟩⟩
    rw [hch, hlo] at heq
    have hsfx := (str_append_right_inj (bp ++ "/audios/" ++ a.md5) ".m4a" ".aac").mp heq
    exact absurd hsfx (by decide)
  · have hch : checkPathAudio bp a = audioLocalPath bp a := by
      unfold checkPathAudio audioLocalPath
      rw [h, mediaExtFor_none, if_neg hfa]
    exact ⟨⟨fun _ => hfa, fun _ => hch⟩, fun hc => absurd hc hfa⟩

/-- Joining a non-empty list starts with its head. -/
theorem joinSep_head (sep x : String) (tl : List String) :
    ∃ r, joinSep sep (x :: tl) = x ++ r := by
  cases tl with
  | nil =>
    refine ⟨"", ?_⟩
    apply strDataInj
    simp [joinSep, String.data_append]
  | cons y ys =>
    refine ⟨sep ++ joinSep sep (y :: ys), ?_⟩
    apply strDataInj
    simp [joinSep, String.data_append, List.append_assoc]

/-- The assembled entry text always starts with the header line. -/
theorem assembleLines_head (ds ts : String) (meta : List String) (txt : Option String) :
    ∃ r, assembleLines ds ts meta txt = (ds ++ " " ++ ts) ++ r := by
  unfold assembleLines
  dsimp only
  have hlines1 : ∃ t1,
      (if meta.isEmpty then [ds ++ " " ++ ts]
       else [ds ++ " " ++ ts] ++ [indent4 (joinSep "\n" meta)]) = (ds ++ " " ++ ts) :: t1 := by
    by_cases hm : meta.isEmpty
    · exact ⟨[], by rw [if_pos hm]⟩
    · exact ⟨[indent4 (joinSep "\n" meta)], by rw [if_neg hm]; rfl⟩
  obtain ⟨t1, ht1⟩ := hlines1
  rw [ht1]
  cases txt with
  | none => exact joinSep_head _ _ _
  | some t =>
    dsimp only
    by_cases ht : t = ""
    · rw [if_pos ht]
      exact joinSep_head _ _ _
    · rw [if_neg ht, List.cons_append]
      exact joinSep_head _ _ _

/-- The hour field of a rendered header: the two characters at offset 12. -/
def hdrHourVal (s : String) : Nat :=
  match (s.data.drop 12).take 2 with
  | [a, b] => (digit2 a b).getD 0
  | _ => 0

/-- A concrete afternoon entry: 23:00 UTC is 19:00 in America/New_York. -/
def c4entry19 : RawEntry :=
  { emptyRaw with creationDate := some "2023-06-01T23:00:00Z",
                  timeZone := some "America/New_York" }

/-- The 12:00 UTC example entry of the claim. -/
def c4entry12 : RawEntry :=
  { emptyRaw with creationDate := some "2023-06-01T12:00:00Z",
                  timeZone := some "America/New_York" }

/-- C4 counterexample: converting the 23:00 UTC entry renders the header
[2023-06-01 19:00:00 PM]: the hour field reads 19, which is not a 12-hour
clock value, because the source formats with the 24-hour directive and an
AM/PM marker together. -/
theorem c4_24hour_header_cex :
    convert c4entry19 "/p" = Except.ok "[2023-06-01 19:00:00 PM] #untagged\n" ∧
    hdrHourVal "[2023-06-01 19:00:00 PM] #untagged\n" = 19 ∧ 12 < 19 := by
  refine ⟨by decide, by decide, by decide⟩

/-- C4 as amended: the header timestamp that convert renders is
[YYYY-MM-DD HH:MM:SS AM/PM] in the localized zone, where HH is the zero-padded
24-hour clock hour and the marker is AM exactly for hours below 12; the
claimed example (12:00 UTC with zone America/New_York) does yield the header
[2023-06-01 08:00:00 AM], since 8 is the same on both clocks. -/
theorem c4_header_format :
    (∀ e bp d out, parseEntryDate e = Except.ok d → convert e bp = Except.ok out →
      ∃ rest, out = "[" ++ pad4 d.year ++ "-" ++ pad2 d.month ++ "-" ++ pad2 d.day ++ " " ++
        pad2 d.hour ++ ":" ++ pad2 d.minute ++ ":" ++ pad2 d.second ++ " " ++
        (if d.hour < 12 then "AM" else "PM") ++ "] " ++ rest) ∧
    convert c4entry12 "/p" = Except.ok "[2023-06-01 08:00:00 AM] #untagged\n" := by
  constructor
  · intro e bp d out hd hout
    unfold convert at hout
    rw [hd] at hout
    dsimp only at hout
    cases htl : tagsLine e.tags with
    | error err =>
      rw [htl] at hout
      simp at hout
    | ok tb =>
      rw [htl] at hout
      dsimp only at hout
      cases hdv : deviceLines e with
      | error err =>
        rw [hdv] at hout
        simp at hout
      | ok mdev =>
        rw [hdv] at hout
        dsimp only at hout
        simp only [Except.ok.injEq] at hout
        obtain ⟨r, hr⟩ := assembleLines_head (headerDate d)
          (tb ++ (if e.starred.getD false then " *\n" else "\n")) _ _
        rw [hr] at hout
        refine ⟨(tb ++ (if e.starred.getD false then " *\n" else "\n")) ++ r, ?_⟩
        rw [← hout]
        apply strDataInj
        simp only [headerDate, String.data_append, List.append_assoc]
        rfl
  · decide

/-- Witness for the universal part of c4_header_format at the example entry. -/
theorem c4_header_format_witness :
    parseEntryDate c4entry12 = Except.ok ⟨2023, 6, 1, 8, 0, 0, some (-240)⟩ ∧
    convert c4entry12 "/p" = Except.ok "[2023-06-01 08:00:00 AM] #untagged\n" ∧
    (∃ rest, "[2023-06-01 08:00:00 AM] #untagged\n" =
      "[" ++ pad4 2023 ++ "-" ++ pad2 6 ++ "-" ++ pad2 1 ++ " " ++ pad2 8 ++ ":" ++ pad2 0 ++
        ":" ++ pad2 0 ++ " " ++ (if 8 < 12 then "AM" else "PM") ++ "] " ++ rest) :=
  ⟨by decide, by decide,
    c4_header_format.1 c4entry12 "/p" ⟨2023, 6, 1, 8, 0, 0, some (-240)⟩
      "[2023-06-01 08:00:00 AM] #untagged\n" (by decide) (by decide)⟩

/-- Normalizing tags succeeds when every tag is non-empty. -/
theorem mapNormTags_ok (ts : List String) (h : ∀ t ∈ ts, t ≠ "") :
    ∃ ns, mapNormTags ts = Except.ok ns := by
  induction ts with
  | nil => exact ⟨[], rfl⟩
  | cons t rest ih =>
    have ht : t ≠ "" := h t (List.mem_cons_self t rest)
    have htd : t.data ≠ [] := fun hd => ht ((str_eq_empty_iff t).mpr hd)
    obtain ⟨ns, hns⟩ := ih (fun x hx => h x (List.mem_cons_of_mem t hx))
    cases hc : t.data with
    | nil => exact absurd hc htd
    | cons c cs =>
      refine ⟨pyReplace (String.mk (c.toLower :: cs)) " " "" :: ns, ?_⟩
      unfold mapNormTags normTag
      rw [hc, hns]

/-- A normTag failure is always the IndexError of the first-character access. -/
theorem normTag_err (t : String) (e : PyErr) (h : normTag t = Except.error e) :
    e = PyErr.indexError := by
  unfold normTag at h
  cases hc : t.data with
  | nil =>
    rw [hc] at h
    simpa using h.symm
  | cons c cs =>
    rw [hc] at h
    simp at h

/-- Normalizing a tag list containing the empty string fails with IndexError. -/
theorem mapNormTags_err (ts : List String) (h : "" ∈ ts) :
    mapNormTags ts = Except.error PyErr.indexError := by
  induction ts with
  | nil => simp at h
  | cons t rest ih =>
    unfold mapNormTags
    rcases List.mem_cons.mp h with heq | hmem
    · rw [← heq]
      rfl
    · cases hn : normTag t with
      | error e => rw [normTag_err t e hn]
      | ok n => rw [ih hmem]

/-- C9: the tag-normalization step of convert is total exactly on non-empty
tags: a truthy tag list of non-empty strings normalizes successfully, while an
entry whose tags contain the empty string makes convert fail with the
IndexError of the first-character access (provided the earlier date step
succeeded). -/
theorem c9_tag_totality :
    (∀ ts : List String, ts ≠ [] → (∀ t ∈ ts, t ≠ "") →
      ∃ s, tagsLine (some ts) = Except.ok s) ∧
    (∀ e bp d, parseEntryDate e = Except.ok d → "" ∈ e.tags.getD [] →
      convert e bp = Except.error PyErr.indexError) := by
  constructor
  · intro ts hne hok
    obtain ⟨ns, hns⟩ := mapNormTags_ok ts hok
    refine ⟨joinSep " " (ns.map (fun tag => "#" ++ tag)), ?_⟩
    unfold tagsLine
    dsimp only
    rw [if_neg (by simpa using hne), hns]
  · intro e bp d hd hmem
    cases hts : e.tags with
    | none =>
      rw [hts] at hmem
      simp at hmem
    | some ts =>
      rw [hts] at hmem
      simp only [Option.getD] at hmem
      have hne : ts ≠ [] := by
        intro h0
        rw [h0] at hmem
        simp at hmem
      have htl : tagsLine e.tags = Except.error PyErr.indexError := by
        unfold tagsLine
        rw [hts]
        dsimp only
        rw [if_neg (by simpa using hne), mapNormTags_err ts hmem]
      unfold convert
      rw [hd]
      dsimp only
      rw [htl]

/-- A concrete entry whose tag list contains the empty string. -/
def c9entryBad : RawEntry :=
  { emptyRaw with creationDate := some "2023-06-01T12:00:00Z", tags := some ["ok", ""] }

/-- Witness for c9_tag_totality at concrete tag lists. -/
theorem c9_tag_totality_witness :
    ((["Hiking", "New York"] : List String) ≠ [] ∧
      (∃ s, tagsLine (some ["Hiking", "New York"]) = Except.ok s)) ∧
    (parseEntryDate c9entryBad = Except.ok ⟨2023, 6, 1, 12, 0, 0, some 0⟩ ∧
      convert c9entryBad "/p" = Except.error PyErr.indexError) :=
  ⟨⟨by decide, c9_tag_totality.1 ["Hiking", "New York"] (by decide) (by decide)⟩,
   ⟨by decide, c9_tag_totality.2 c9entryBad "/p" ⟨2023, 6, 1, 12, 0, 0, some 0⟩
      (by decide) (by decide)⟩⟩

/-- The remainder of a span is never longer than the input. -/
theorem spanChars_snd_le (p : Char → Bool) (l : List Char) :
    (spanChars p l).2.length ≤ l.length := by
  induction l with
  | nil => simp [spanChars]
  | cons c cs ih =>
    unfold spanChars
    by_cases hp : p c = true
    · rw [if_pos hp]
      exact Nat.le_succ_of_le ih
    · rw [if_neg hp]

/-- Spanning a run that fully satisfies the predicate, followed by a failing
character, splits exactly at that character. -/
theorem spanChars_all_append (p : Char → Bool) (xs : List Char) (y : Char) (ys : List Char)
    (hxs : ∀ c ∈ xs, p c = true) (hy : p y = false) :
    spanChars p (xs ++ y :: ys) = (xs, y :: ys) := by
  induction xs with
  | nil =>
    rw [List.nil_append]
    unfold spanChars
    dsimp only
    rw [if_neg (by simp [hy])]
  | cons c cs ih =>
    have hc : p c = true := hxs c (List.mem_cons_self c cs)
    have hcs : ∀ x ∈ cs, p x = true := fun x hx => hxs x (List.mem_cons_of_mem c hx)
    rw [List.cons_append]
    unfold spanChars
    dsimp only
    rw [if_pos hc, ih hcs]

/-- Consuming a literal that is literally a prefix succeeds with the rest. -/
theorem dropLit_self (lit z : List Char) : dropLit lit (lit ++ z) = some z := by
  induction lit with
  | nil => rfl
  | cons c cs ih =>
    rw [List.cons_append]
    unfold dropLit
    rw [if_pos rfl, ih]

/-- A successful dropLit returns a remainder no longer than the input. -/
theorem dropLit_le (lit : List Char) :
    ∀ (b r : List Char), dropLit lit b = some r → r.length ≤ b.length := by
  induction lit with
  | nil =>
    intro b r h
    unfold dropLit at h
    cases h
    exact Nat.le_refl _
  | cons c cs ih =>
    intro b r h
    cases b with
    | nil => simp [dropLit] at h
    | cons x xs =>
      unfold dropLit at h
      by_cases hx : x = c
      · rw [if_pos hx] at h
        exact Nat.le_succ_of_le (ih xs r h)
      · rw [if_neg hx] at h
        simp at h

/-- No match starts at a character other than an opening bracket. -/
theorem matchLink_not_bracket (c : Char) (rest : List Char) (h : c ≠ '[') :
    matchLink (c :: rest) = none := by
  unfold matchLink
  dsimp only
  rw [if_neg h]

/-- A successful match consumes at least one character. -/
theorem matchLink_len (l dt u r : List Char) (h : matchLink l = some (dt, u, r)) :
    r.length < l.length := by
  cases l with
  | nil => simp [matchLink] at h
  | cons c rest =>
    unfold matchLink at h
    dsimp only at h
    by_cases hc : c = '['
    · rw [if_pos hc] at h
      by_cases h1 : (spanChars (fun x => x ≠ ']') rest).1.isEmpty
      · rw [if_pos h1] at h
        simp at h
      · rw [if_neg h1] at h
        cases h2 : dropLit midLit (spanChars (fun x => x ≠ ']') rest).2 with
        | none =>
          rw [h2] at h
          simp at h
        | some r2 =>
          rw [h2] at h
          dsimp only at h
          by_cases h3 : (spanChars uuidChar r2).1.isEmpty
          · rw [if_pos h3] at h
            simp at h
          · rw [if_neg h3] at h
            cases h4 : (spanChars uuidChar r2).2 with
            | nil =>
              rw [h4] at h
              simp at h
            | cons c2 r4 =>
              rw [h4] at h
              dsimp only at h
              by_cases h5 : c2 = ')'
              · rw [if_pos h5] at h
                have hr : r = r4 := by
                  cases h
                  rfl
                subst hr
                have k1 : r.length < (spanChars uuidChar r2).2.length := by
                  rw [h4]
                  exact Nat.lt_succ_self _
                have k2 : (spanChars uuidChar r2).2.length ≤ r2.length :=
                  spanChars_snd_le _ _
                have k3 : r2.length ≤ (spanChars (fun x => x ≠ ']') rest).2.length :=
                  dropLit_le _ _ _ h2
                have k4 : (spanChars (fun x => x ≠ ']') rest).2.length ≤ rest.length :=
                  spanChars_snd_le _ _
                calc r.length < r2.length := Nat.lt_of_lt_of_le k1 k2
                  _ ≤ rest.length := Nat.le_trans k3 k4
                  _ < (c :: rest).length := Nat.lt_succ_self _
              · rw [if_neg h5] at h
                simp at h
    · rw [if_neg hc] at h
      simp at h

/-- The head character of the middle literal. -/
theorem midLit_head : midLit = ']' :: "(dayone2://view?Id=".data := rfl

/-- A well-formed link matches, yielding its display text, uuid and remainder. -/
theorem matchLink_link (dt u tail : List Char)
    (hdtne : dt ≠ []) (hdt : ']' ∉ dt)
    (hune : u ≠ []) (hu : ∀ c ∈ u, uuidChar c = true) :
    matchLink ('[' :: (dt ++ (midLit ++ (u ++ ')' :: tail)))) = some (dt, u, tail) := by
  unfold matchLink
  dsimp only
  rw [if_pos rfl]
  have hs1 : spanChars (fun x => x ≠ ']') (dt ++ (midLit ++ (u ++ ')' :: tail))) =
      (dt, midLit ++ (u ++ ')' :: tail)) := by
    rw [midLit_head, List.cons_append]
    refine spanChars_all_append _ dt ']' _ ?_ (by simp)
    intro c hc
    simp only [decide_eq_true_eq]
    intro he
    exact hdt (he ▸ hc)
  rw [hs1]
  rw [if_neg (by simpa using hdtne)]
  rw [dropLit_self midLit (u ++ ')' :: tail)]
  dsimp only
  have hs2 : spanChars uuidChar (u ++ ')' :: tail) = (u, ')' :: tail) :=
    spanChars_all_append _ u ')' tail hu (by decide)
  rw [hs2]
  dsimp only
  rw [if_neg (by simpa using hune)]
  rw [if_pos rfl]

/-- resolveAuxF does not depend on the fuel once the fuel covers the input
length. -/
theorem resolveAuxF_eq_of_le (st : IndexState) :
    ∀ (n m : Nat) (l : List Char), l.length ≤ n → l.length ≤ m →
      resolveAuxF st n l = resolveAuxF st m l := by
  intro n
  induction n with
  | zero =>
    intro m l hn _
    have h0 : l = [] := List.eq_nil_of_length_eq_zero (Nat.le_zero.mp hn)
    subst h0
    cases m <;> rfl
  | succ n ih =>
    intro m l hn hm
    cases l with
    | nil => cases m <;> rfl
    | cons c rest =>
      cases m with
      | zero => simp at hm
      | succ m2 =>
        have hrest : rest.length ≤ n := Nat.succ_le_succ_iff.mp (by simpa using hn)
        have hrest2 : rest.length ≤ m2 := Nat.succ_le_succ_iff.mp (by simpa using hm)
        cases hml : matchLink (c :: rest) with
        | none =>
          dsimp only [resolveAuxF]
          rw [hml]
          dsimp only
          rw [ih m2 rest hrest hrest2]
        | some x =>
          obtain ⟨dt, u, r⟩ := x
          dsimp only [resolveAuxF]
          rw [hml]
          dsimp only
          have hr : r.length < rest.length + 1 := by
            simpa using matchLink_len (c :: rest) dt u r hml
          have h1 : r.length ≤ n := Nat.le_trans (Nat.lt_succ_iff.mp hr) hrest
          have h2 : r.length ≤ m2 := Nat.le_trans (Nat.lt_succ_iff.mp hr) hrest2
          rw [ih m2 r h1 h2]

/-- The one-step unfolding of the canonical scanner. -/
theorem resolveListChars_cons (st : IndexState) (c : Char) (rest : List Char) :
    resolveListChars st (c :: rest) =
      (match matchLink (c :: rest) with
       | some (dt, u, r) => replFor st dt u ++ resolveListChars st r
       | none => c :: resolveListChars st rest) := by
  unfold resolveListChars
  rw [List.length_cons]
  cases hml : matchLink (c :: rest) with
  | none =>
    dsimp only [resolveAuxF]
    rw [hml]
  | some x =>
    obtain ⟨dt, u, r⟩ := x
    dsimp only [resolveAuxF]
    rw [hml]
    dsimp only
    have hr : r.length < rest.length + 1 := by
      simpa using matchLink_len (c :: rest) dt u r hml
    rw [resolveAuxF_eq_of_le st rest.length r.length r (Nat.lt_succ_iff.mp hr) (Nat.le_refl _)]

/-- The scanner passes over a prefix free of opening brackets untouched. -/
theorem resolveListChars_no_bracket (st : IndexState) (pre : List Char) (tail : List Char)
    (h : '[' ∉ pre) :
    resolveListChars st (pre ++ tail) = pre ++ resolveListChars st tail := by
  induction pre with
  | nil => rfl
  | cons c cs ih =>
    have hc : c ≠ '[' := fun he => h (he ▸ List.mem_cons_self c cs)
    have hcs : '[' ∉ cs := fun hm => h (List.mem_cons_of_mem c hm)
    rw [List.cons_append, resolveListChars_cons,
        matchLink_not_bracket c (cs ++ tail) hc]
    dsimp only
    rw [ih hcs, List.cons_append]

/-- The scanner rewrites a well-formed link at the head of the input and
continues after it. -/
theorem resolveListChars_link (st : IndexState) (dt u tail : List Char)
    (hdtne : dt ≠ []) (hdt : ']' ∉ dt)
    (hune : u ≠ []) (hu : ∀ c ∈ u, uuidChar c = true) :
    resolveListChars st ('[' :: (dt ++ (midLit ++ (u ++ ')' :: tail)))) =
      replFor st dt u ++ resolveListChars st tail := by
  rw [resolveListChars_cons, matchLink_link dt u tail hdtne hdt hune hu]

/-- Rebuilding a string from its character data is the identity. -/
theorem strEta (s : String) : String.mk s.data = s := by
  cases s
  rfl

/-- With a usable index, __getitem__ is a plain lookup. -/
theorem getItem_usable (st : IndexState) (u : String) (h : is_usable st = true) :
    getItem st u = st.entries.lookup u := by
  unfold getItem
  rw [h]
  simp

/-- C6: over a usable index, resolve_links rewrites a well-formed inline link
whose uuid is present into the cross-journal reference built from the stored
journal name and zero-padded date, leaves a link whose uuid is absent
unchanged, and in both cases continues scanning after the link. -/
theorem c6_resolve_links_rewrite (st : IndexState) (pre dt u tail : String)
    (husable : is_usable st = true)
    (hpre : '[' ∉ pre.data) (hdtne : dt ≠ "") (hdt : ']' ∉ dt.data)
    (hune : u ≠ "") (hu : ∀ c ∈ u.data, uuidChar c = true) :
    (∀ tgt, st.entries.lookup u = some tgt →
      resolve_links st (pre ++ "[" ++ dt ++ "](dayone2://view?Id=" ++ u ++ ")" ++ tail) =
        pre ++ ("[[" ++ tgt.journal_name ++ "/" ++ pad4 tgt.date.year ++ "/" ++
          pad2 tgt.date.month ++ "/" ++ pad2 tgt.date.day ++ "|" ++ dt ++ "]]") ++
          resolve_links st tail) ∧
    (st.entries.lookup u = none →
      resolve_links st (pre ++ "[" ++ dt ++ "](dayone2://view?Id=" ++ u ++ ")" ++ tail) =
        pre ++ ("[" ++ dt ++ "](dayone2://view?Id=" ++ u ++ ")") ++ resolve_links st tail) := by
  have hdtne2 : dt.data ≠ [] := fun h0 => hdtne ((str_eq_empty_iff dt).mpr h0)
  have hune2 : u.data ≠ [] := fun h0 => hune ((str_eq_empty_iff u).mpr h0)
  have hdata : (pre ++ "[" ++ dt ++ "](dayone2://view?Id=" ++ u ++ ")" ++ tail).data =
      pre.data ++ ('[' :: (dt.data ++ (midLit ++ (u.data ++ ')' :: tail.data)))) := by
    simp only [String.data_append, List.append_assoc]
    rfl
  have hstep : resolveListChars st
        ((pre ++ "[" ++ dt ++ "](dayone2://view?Id=" ++ u ++ ")" ++ tail).data) =
      pre.data ++ (replFor st dt.data u.data ++ resolveListChars st tail.data) := by
    rw [hdata, resolveListChars_no_bracket st pre.data _ hpre,
        resolveListChars_link st dt.data u.data tail.data hdtne2 hdt hune2 hu]
  have hget : getItem st (String.mk u.data) = st.entries.lookup u := by
    rw [strEta u]
    exact getItem_usable st u husable
  have hres : (resolve_links st tail).data = resolveListChars st tail.data := rfl
  constructor
  · intro tgt hlk
    have hrepl : replFor st dt.data u.data = (entryRef tgt dt).data := by
      unfold replFor
      rw [hget, hlk]
    apply strDataInj
    show (resolveListChars st _) = _
    rw [hstep, hrepl]
    simp only [entryRef, String.data_append, List.append_assoc, List.cons_append,
      List.singleton_append, List.nil_append, hres]
  · intro hlk
    have hrepl : replFor st dt.data u.data =
        '[' :: (dt.data ++ (midLit ++ (u.data ++ [')']))) := by
      unfold replFor
      rw [hget, hlk]
      dsimp only
      simp only [List.append_assoc]
    apply strDataInj
    show (resolveListChars st _) = _
    rw [hstep, hrepl]
    simp only [midLit, String.data_append, List.append_assoc, List.cons_append,
      List.singleton_append, List.nil_append, hres]

/-- A concrete usable index for the resolve_links witness: uuid abc-1 maps to
journal work with date 2023-05-04. -/
def c6state : IndexState :=
  { disk := some (saveIndexJson [] pyDatetimeMin),
    entries := [("abc-1", ⟨"abc-1", ⟨2023, 5, 4, 0, 0, 0, some 0⟩, "work", "Orig"⟩)],
    last_modified := pyDatetimeMin,
    mode := IndexMode.USE }

/-- Witness for c6_resolve_links_rewrite at the concrete example of the claim:
a known uuid is rewritten, an unknown one is left unchanged. -/
theorem c6_resolve_links_rewrite_witness :
    (is_usable c6state = true ∧
      resolve_links c6state
          ("See " ++ "[" ++ "my day" ++ "](dayone2://view?Id=" ++ "abc-1" ++ ")" ++ "") =
        "See " ++ ("[[" ++ "work" ++ "/" ++ pad4 2023 ++ "/" ++ pad2 5 ++ "/" ++ pad2 4 ++
          "|" ++ "my day" ++ "]]") ++ resolve_links c6state "") ∧
    resolve_links c6state
        ("See " ++ "[" ++ "my day" ++ "](dayone2://view?Id=" ++ "zzz" ++ ")" ++ "") =
      "See " ++ ("[" ++ "my day" ++ "](dayone2://view?Id=" ++ "zzz" ++ ")") ++
        resolve_links c6state "" :=
  ⟨⟨by decide,
    (c6_resolve_links_rewrite c6state "See " "my day" "abc-1" "" (by decide) (by decide)
        (by decide) (by decide) (by decide) (by decide)).1
      ⟨"abc-1", ⟨2023, 5, 4, 0, 0, 0, some 0⟩, "work", "Orig"⟩ (by decide)⟩,
   (c6_resolve_links_rewrite c6state "See " "my day" "zzz" "" (by decide) (by decide)
        (by decide) (by decide) (by decide) (by decide)).2 (by decide)⟩

/-- Lookup is preserved on the left of an append. -/
theorem lookup_append_some (es t : List (String × IndexedEntry)) (u : String)
    (v : IndexedEntry) (h : es.lookup u = some v) : (es ++ t).lookup u = some v := by
  induction es with
  | nil => simp [List.lookup] at h
  | cons p rest ih =>
    obtain ⟨k, b⟩ := p
    rw [List.cons_append]
    by_cases hbe : (u == k) = true
    · simp only [List.lookup, hbe] at h ⊢
      exact h
    · have hbe2 : (u == k) = false := by simpa using hbe
      simp only [List.lookup, hbe2] at h ⊢
      exact ih h

/-- Lookup skips a left part in which the key is absent. -/
theorem lookup_append_none (es t : List (String × IndexedEntry)) (u : String)
    (h : es.lookup u = none) : (es ++ t).lookup u = t.lookup u := by
  induction es with
  | nil => rfl
  | cons p rest ih =>
    obtain ⟨k, b⟩ := p
    rw [List.cons_append]
    by_cases hbe : (u == k) = true
    · simp only [List.lookup, hbe] at h
      simp at h
    · have hbe2 : (u == k) = false := by simpa using hbe
      simp only [List.lookup, hbe2] at h ⊢
      exact ih h

/-- A key that lookup cannot find is not among the mapped keys. -/
theorem lookup_none_not_mem (es : List (String × IndexedEntry)) (u : String)
    (h : es.lookup u = none) : u ∉ es.map Prod.fst := by
  induction es with
  | nil => simp
  | cons p rest ih =>
    obtain ⟨k, b⟩ := p
    by_cases hbe : (u == k) = true
    · simp only [List.lookup, hbe] at h
      simp at h
    · have hbe2 : (u == k) = false := by simpa using hbe
      simp only [List.lookup, hbe2] at h
      simp only [List.map, List.mem_cons]
      rintro (heq | hmem)
      · rw [heq] at hbe2
        simp at hbe2
      · exact ih h hmem

/-- The entry loop only appends: its successful output extends the input. -/
theorem addLoop_prefix (jn orig : String) :
    ∀ (raws : List RawEntry) (es es2 : List (String × IndexedEntry)),
      addLoop jn orig raws es = Except.ok es2 → ∃ t, es2 = es ++ t := by
  intro raws
  induction raws with
  | nil =>
    intro es es2 h
    unfold addLoop at h
    cases h
    exact ⟨[], by simp⟩
  | cons e rest ih =>
    intro es es2 h
    unfold addLoop at h
    cases ht : truthyUuid e with
    | none =>
      rw [ht] at h
      exact ih es es2 h
    | some u =>
      rw [ht] at h
      dsimp only at h
      by_cases hl : (es.lookup u).isSome
      · rw [if_pos hl] at h
        exact ih es es2 h
      · rw [if_neg hl] at h
        cases hpd : parseEntryDate e with
        | error err =>
          rw [hpd] at h
          simp at h
        | ok d =>
          rw [hpd] at h
          dsimp only at h
          obtain ⟨t, ht2⟩ := ih _ es2 h
          refine ⟨(u, ⟨u, d, jn, orig⟩) :: t, ?_⟩
          rw [ht2, List.append_assoc]
          rfl

/-- After a successful loop, every raw entry with a truthy uuid is present. -/
theorem addLoop_covers (jn orig : String) :
    ∀ (raws : List RawEntry) (es es2 : List (String × IndexedEntry)),
      addLoop jn orig raws es = Except.ok es2 →
      ∀ e ∈ raws, ∀ u, truthyUuid e = some u → (es2.lookup u).isSome := by
  intro raws
  induction raws with
  | nil =>
    intro es es2 _ e he
    simp at he
  | cons e0 rest ih =>
    intro es es2 h e he u hu
    unfold addLoop at h
    cases ht : truthyUuid e0 with
    | none =>
      rw [ht] at h
      rcases List.mem_cons.mp he with heq | hmem
      · rw [heq] at hu
        rw [ht] at hu
        simp at hu
      · exact ih es es2 h e hmem u hu
    | some u0 =>
      rw [ht] at h
      dsimp only at h
      by_cases hl : (es.lookup u0).isSome
      · rw [if_pos hl] at h
        rcases List.mem_cons.mp he with heq | hmem
        · rw [heq] at hu
          rw [ht] at hu
          cases hu
          obtain ⟨v, hv⟩ := Option.isSome_iff_exists.mp hl
          obtain ⟨t, ht2⟩ := addLoop_prefix jn orig rest es es2 h
          rw [ht2, lookup_append_some es t u v hv]
          rfl
        · exact ih es es2 h e hmem u hu
      · rw [if_neg hl] at h
        cases hpd : parseEntryDate e0 with
        | error err =>
          rw [hpd] at h
          simp at h
        | ok d =>
          rw [hpd] at h
          dsimp only at h
          rcases List.mem_cons.mp he with heq | hmem
          · rw [heq] at hu
            rw [ht] at hu
            cases hu
            obtain ⟨t, ht2⟩ := addLoop_prefix jn orig rest _ es2 h
            have hnone : es.lookup u = none := Option.not_isSome_iff_eq_none.mp hl
            have hone : (es ++ [(u, (⟨u, d, jn, orig⟩ : IndexedEntry))]).lookup u =
                some (⟨u, d, jn, orig⟩ : IndexedEntry) := by
              rw [lookup_append_none es _ u hnone]
              simp [List.lookup]
            have hfull := lookup_append_some
              (es ++ [(u, (⟨u, d, jn, orig⟩ : IndexedEntry))]) t u
              (⟨u, d, jn, orig⟩ : IndexedEntry) hone
            rw [ht2, hfull]
            rfl
          · exact ih _ es2 h e hmem u hu

/-- The loop is the identity when every raw entry with a truthy uuid is
already present. -/
theorem addLoop_noop (jn orig : String) :
    ∀ (raws : List RawEntry) (es : List (String × IndexedEntry)),
      (∀ e ∈ raws, ∀ u, truthyUuid e = some u → (es.lookup u).isSome) →
      addLoop jn orig raws es = Except.ok es := by
  intro raws
  induction raws with
  | nil =>
    intro es _
    rfl
  | cons e0 rest ih =>
    intro es hcov
    unfold addLoop
    cases ht : truthyUuid e0 with
    | none => exact ih es (fun e he => hcov e (List.mem_cons_of_mem e0 he))
    | some u =>
      dsimp only
      rw [if_pos (hcov e0 (List.mem_cons_self e0 rest) u ht)]
      exact ih es (fun e he => hcov e (List.mem_cons_of_mem e0 he))

/-- The loop preserves distinctness of the uuid keys. -/
theorem addLoop_nodup (jn orig : String) :
    ∀ (raws : List RawEntry) (es es2 : List (String × IndexedEntry)),
      addLoop jn orig raws es = Except.ok es2 →
      (es.map Prod.fst).Nodup → (es2.map Prod.fst).Nodup := by
  intro raws
  induction raws with
  | nil =>
    intro es es2 h hnd
    unfold addLoop at h
    cases h
    exact hnd
  | cons e0 rest ih =>
    intro es es2 h hnd
    unfold addLoop at h
    cases ht : truthyUuid e0 with
    | none =>
      rw [ht] at h
      exact ih es es2 h hnd
    | some u =>
      rw [ht] at h
      dsimp only at h
      by_cases hl : (es.lookup u).isSome
      · rw [if_pos hl] at h
        exact ih es es2 h hnd
      · rw [if_neg hl] at h
        cases hpd : parseEntryDate e0 with
        | error err =>
          rw [hpd] at h
          simp at h
        | ok d =>
          rw [hpd] at h
          dsimp only at h
          refine ih _ es2 h ?_
          rw [List.map_append]
          rw [List.nodup_append]
          refine ⟨hnd, by simp, ?_⟩
          intro x hx hx2
          simp at hx2
          rw [hx2] at hx
          exact lookup_none_not_mem es u (Option.not_isSome_iff_eq_none.mp hl) hx

/-- With a successful loop, add_entries reduces to the created/updated versus
up-to-date branching of the source. -/
theorem add_entries_cases (st : IndexState) (raws : List RawEntry) (jn p : String)
    (now : PyDateTime) (es2 : List (String × IndexedEntry))
    (hloop : addLoop jn (extract_journal_name p) raws st.entries = Except.ok es2) :
    add_entries st raws jn p now =
      (if (st.entries.length == 0 || decide (es2.length > st.entries.length)) = true then
        Except.ok ({ st with entries := es2, last_modified := now, disk := some (saveIndexJson es2 now) },
          if (st.entries.length == 0) = true then AddMsg.created es2.length
          else AddMsg.updated (es2.length - st.entries.length))
      else Except.ok ({ st with entries := es2 }, AddMsg.upToDate)) := by
  unfold add_entries
  dsimp only
  rw [hloop]

/-- The entry mapping of a successful add_entries result is the loop output,
in both branches. -/
theorem add_entries_entries_eq (st : IndexState) (raws : List RawEntry) (jn p : String)
    (now : PyDateTime) (st2 : IndexState) (msg : AddMsg)
    (es2 : List (String × IndexedEntry))
    (hloop : addLoop jn (extract_journal_name p) raws st.entries = Except.ok es2)
    (h : add_entries st raws jn p now = Except.ok (st2, msg)) :
    st2.entries = es2 := by
  rw [add_entries_cases st raws jn p now es2 hloop] at h
  by_cases hcond : (st.entries.length == 0 || decide (es2.length > st.entries.length)) = true
  · rw [if_pos hcond] at h
    simp only [Except.ok.injEq, Prod.mk.injEq] at h
    rw [← h.1]
  · rw [if_neg hcond] at h
    simp only [Except.ok.injEq, Prod.mk.injEq] at h
    rw [← h.1]

/-- A failing loop makes add_entries fail. -/
theorem add_entries_error (st : IndexState) (raws : List RawEntry) (jn p : String)
    (now : PyDateTime) (err : PyErr)
    (hloop : addLoop jn (extract_journal_name p) raws st.entries = Except.error err) :
    add_entries st raws jn p now = Except.error err := by
  unfold add_entries
  dsimp only
  rw [hloop]

/-- C3 as amended: (a) on a prior index with at least one entry, an add_entries
call that adds no new entries reports up-to-date and leaves the state — entry
mapping, last_modified and persisted file — exactly unchanged; (b) a second
add_entries call with the same raw entries after a successful first call whose
result is non-empty reports up-to-date and changes nothing. The restriction to
a non-empty prior index is forced by the source: is_created is computed as
"the index was empty before", so a no-op call on an empty index reports
"created", bumps last_modified and rewrites the file. -/
theorem c3_up_to_date_idempotent :
    (∀ (st : IndexState) (raws : List RawEntry) (jn p : String) (now : PyDateTime)
        (st2 : IndexState) (msg : AddMsg),
      st.entries ≠ [] →
      add_entries st raws jn p now = Except.ok (st2, msg) →
      st2.entries.length = st.entries.length →
      msg = AddMsg.upToDate ∧ st2 = st) ∧
    (∀ (st : IndexState) (raws : List RawEntry) (jn p : String) (now now2 : PyDateTime)
        (st1 : IndexState) (m1 : AddMsg),
      add_entries st raws jn p now = Except.ok (st1, m1) →
      st1.entries ≠ [] →
      add_entries st1 raws jn p now2 = Except.ok (st1, AddMsg.upToDate)) := by
  constructor
  · intro st raws jn p now st2 msg hne h hlen
    cases hloop : addLoop jn (extract_journal_name p) raws st.entries with
    | error e =>
      rw [add_entries_error st raws jn p now e hloop] at h
      simp at h
    | ok es2 =>
      have hst2e : st2.entries = es2 := add_entries_entries_eq st raws jn p now st2 msg es2 hloop h
      have hlen2 : es2.length = st.entries.length := by
        rw [← hst2e]
        exact hlen
      have hb : (st.entries.length == 0) = false :=
        beq_eq_false_iff_ne.mpr (fun h0 => hne (List.length_eq_zero.mp h0))
      have hd : decide (es2.length > st.entries.length) = false :=
        decide_eq_false (by rw [hlen2]; exact lt_irrefl _)
      have hcond : (st.entries.length == 0 || decide (es2.length > st.entries.length)) = false := by
        rw [hb, hd]
        rfl
      rw [add_entries_cases st raws jn p now es2 hloop, if_neg (by simp [hcond])] at h
      simp only [Except.ok.injEq, Prod.mk.injEq] at h
      have hes : es2 = st.entries := by
        obtain ⟨t, ht⟩ := addLoop_prefix jn (extract_journal_name p) raws st.entries es2 hloop
        have ht0 : t = [] := by
          have := hlen2
          rw [ht] at this
          simp only [List.length_append] at this
          exact List.eq_nil_of_length_eq_zero (by omega)
        rw [ht, ht0, List.append_nil]
      refine ⟨h.2.symm, ?_⟩
      rw [← h.1, hes]
  · intro st raws jn p now now2 st1 m1 h1 hne
    cases hloop : addLoop jn (extract_journal_name p) raws st.entries with
    | error e =>
      rw [add_entries_error st raws jn p now e hloop] at h1
      simp at h1
    | ok es2 =>
      have hst1e : st1.entries = es2 :=
        add_entries_entries_eq st raws jn p now st1 m1 es2 hloop h1
      have hcov := addLoop_covers jn (extract_journal_name p) raws st.entries es2 hloop
      have hnoop : addLoop jn (extract_journal_name p) raws st1.entries =
          Except.ok st1.entries := by
        apply addLoop_noop
        intro e he u hu
        rw [hst1e]
        exact hcov e he u hu
      rw [add_entries_cases st1 raws jn p now2 st1.entries hnoop]
      have hb : (st1.entries.length == 0) = false :=
        beq_eq_false_iff_ne.mpr (fun h0 => hne (List.length_eq_zero.mp h0))
      have hd : decide (st1.entries.length > st1.entries.length) = false :=
        decide_eq_false (lt_irrefl _)
      rw [if_neg (by simp [hb, hd])]

/-- C7: a successful add_entries call never overwrites an existing uuid entry
(first write wins: every previously stored uuid still maps to exactly its old
record) and preserves distinctness of the uuid keys. -/
theorem c7_first_write_wins (st : IndexState) (raws : List RawEntry) (jn p : String)
    (now : PyDateTime) (st2 : IndexState) (msg : AddMsg)
    (h : add_entries st raws jn p now = Except.ok (st2, msg)) :
    (∀ u v, st.entries.lookup u = some v → st2.entries.lookup u = some v) ∧
    ((st.entries.map Prod.fst).Nodup → (st2.entries.map Prod.fst).Nodup) := by
  cases hloop : addLoop jn (extract_journal_name p) raws st.entries with
  | error e =>
    rw [add_entries_error st raws jn p now e hloop] at h
    simp at h
  | ok es2 =>
    have hst2e : st2.entries = es2 := add_entries_entries_eq st raws jn p now st2 msg es2 hloop h
    constructor
    · intro u v hv
      rw [hst2e]
      obtain ⟨t, ht⟩ := addLoop_prefix jn (extract_journal_name p) raws st.entries es2 hloop
      rw [ht]
      exact lookup_append_some st.entries t u v hv
    · intro hnd
      rw [hst2e]
      exact addLoop_nodup jn (extract_journal_name p) raws st.entries es2 hloop hnd

/-- A concrete call time for the add_entries statements. -/
def c3now : PyDateTime := ⟨2024, 1, 1, 0, 0, 0, none⟩

/-- A later concrete call time. -/
def c3now2 : PyDateTime := ⟨2024, 1, 2, 0, 0, 0, none⟩

/-- A fresh index state: no file on disk, empty mapping. -/
def c3emptyState : IndexState :=
  { disk := none, entries := [], last_modified := pyDatetimeMin, mode := IndexMode.BUILD }

/-- A concrete raw entry with uuid u-1. -/
def c3entryA : RawEntry :=
  { emptyRaw with uuid := some "u-1", creationDate := some "2023-06-01T12:00:00Z" }

/-- A raw entry with the same uuid u-1 but different metadata. -/
def c3entryB : RawEntry :=
  { emptyRaw with uuid := some "u-1", creationDate := some "2024-02-02T00:00:00Z" }

/-- The indexed record the first call stores for u-1. -/
def c3storedA : IndexedEntry := ⟨"u-1", ⟨2023, 6, 1, 12, 0, 0, some 0⟩, "work", "export"⟩

/-- The index state after adding c3entryA to the fresh state at time c3now. -/
def c3state1 : IndexState :=
  { disk := some (saveIndexJson [("u-1", c3storedA)] c3now),
    entries := [("u-1", c3storedA)],
    last_modified := c3now,
    mode := IndexMode.BUILD }

/-- C3 counterexample: on an empty prior index, an add_entries call with no raw
entries — which adds nothing — reports "created" (with count 0) instead of
"up to date", sets last_modified to the call time and writes the index file,
because the source computes is_created from emptiness before the call alone. -/
theorem c3_created_on_empty_noop_cex :
    add_entries c3emptyState [] "work" "export.json" c3now =
      Except.ok ({ disk := some (saveIndexJson [] c3now), entries := [], last_modified := c3now, mode := IndexMode.BUILD },
        AddMsg.created 0) ∧
    AddMsg.created 0 ≠ AddMsg.upToDate ∧
    c3now ≠ c3emptyState.last_modified ∧
    some (saveIndexJson [] c3now) ≠ c3emptyState.disk := by
  refine ⟨rfl, by decide, by decide, ?_⟩
  intro h
  exact Option.noConfusion h

/-- Witness for c3_up_to_date_idempotent: a concrete first call stores u-1,
and the repeated call with the same export data is reported up-to-date and
changes nothing. -/
theorem c3_up_to_date_idempotent_witness :
    add_entries c3emptyState [c3entryA] "work" "export.json" c3now =
      Except.ok (c3state1, AddMsg.created 1) ∧
    c3state1.entries ≠ [] ∧
    add_entries c3state1 [c3entryA] "work" "export.json" c3now2 =
      Except.ok (c3state1, AddMsg.upToDate) :=
  ⟨rfl, by decide,
   c3_up_to_date_idempotent.2 c3emptyState [c3entryA] "work" "export.json" c3now c3now2
     c3state1 (AddMsg.created 1) rfl (by decide)⟩

/-- Witness for c7_first_write_wins: adding a record with an already-present
uuid and different metadata leaves the stored record intact and the key list
duplicate-free. -/
theorem c7_first_write_wins_witness :
    add_entries c3state1 [c3entryB] "other" "other.json" c3now2 =
      Except.ok (c3state1, AddMsg.upToDate) ∧
    List.lookup "u-1" c3state1.entries = some c3storedA ∧
    (c3state1.entries.map Prod.fst).Nodup :=
  ⟨rfl,
   (c7_first_write_wins c3state1 [c3entryB] "other" "other.json" c3now2 c3state1
      AddMsg.upToDate rfl).1 "u-1" c3storedA rfl,
   (c7_first_write_wins c3state1 [c3entryB] "other" "other.json" c3now2 c3state1
      AddMsg.upToDate rfl).2 (by decide)⟩

/-- Witness for c10_audio_ext_relation at concrete audio attachments. -/
theorem c10_audio_ext_relation_witness :
    (RawAudio.mk "id1" "m5" none "aac").atype = none ∧
    ((checkPathAudio "/b" (RawAudio.mk "id1" "m5" none "aac") =
        audioLocalPath "/b" (RawAudio.mk "id1" "m5" none "aac") ↔
        (RawAudio.mk "id1" "m5" none "aac").format ≠ "aac") ∧
      ((RawAudio.mk "id1" "m5" none "aac").format = "aac" →
        checkPathAudio "/b" (RawAudio.mk "id1" "m5" none "aac") =
          "/b" ++ "/audios/" ++ (RawAudio.mk "id1" "m5" none "aac").md5 ++ ".m4a" ∧
        audioLocalPath "/b" (RawAudio.mk "id1" "m5" none "aac") =
          "/b" ++ "/audios/" ++ (RawAudio.mk "id1" "m5" none "aac").md5 ++ ".aac")) :=
  ⟨rfl, c10_audio_ext_relation "/b" (RawAudio.mk "id1" "m5" none "aac") rfl⟩

end Jrnl
